import Mathlib

/-!
Verification of the local content-addressed byte store
(src/rust/engine/fs/store/src/local.rs).

The Rust code is shallowly embedded: each storage tier (the two ShardedLmdb
namespaces and the sharded filesystem store) is modelled as an association
list from fingerprints to byte strings, fingerprints are modelled as natural
numbers, byte strings as lists of naturals, and fallible operations return
Except String.  The external collaborators that the source treats as black
boxes (the ShardedLmdb key-value store, the hashing primitives) are modelled
from the spec where noted.
-/

/-- EntryType from the store crate: the two logical namespaces. -/
inductive EntryType
  | File
  | Directory
deriving DecidableEq, Repr

/-- Digest: a fingerprint (modelled as a Nat) plus a declared length. -/
structure Digest where
  hash : Nat
  size_bytes : Nat
deriving DecidableEq, Repr

/-- LARGE_FILE_SIZE_LIMIT from local.rs: 512 KiB. -/
def LARGE_FILE_SIZE_LIMIT : Nat := 512 * 1024

/-- Modelled from the spec: the SHA-256 fingerprint of the empty byte string
(the hashing crate defining EMPTY_DIGEST is not under src/). -/
def EMPTY_FP : Nat := 0xe3b0c44298fc1c149afbf4c8996fb92427ae41e4649b934ca495991b7852b855

/-- Modelled from the spec: EMPTY_DIGEST, the digest of the empty byte string. -/
def EMPTY_DIGEST : Digest := ⟨EMPTY_FP, 0⟩

/-- A storage tier's contents: fingerprint to bytes, most recent entry first.
Modelled from the spec for the two ShardedLmdb tiers (a black-box byte map);
for the ShardedFSDB tier an entry (fp, b) stands for the file <root>/<hh>/<hex fp>
with contents b. -/
abbrev Tier := List (Nat × List Nat)

def tierContains (tier : Tier) (fp : Nat) : Bool :=
  (tier.lookup fp).isSome

def tierLookup (tier : Tier) (fp : Nat) : Option (List Nat) :=
  tier.lookup fp

/-- The digests derivable from a tier (all_digests strips the age from
aged_fingerprints; sizes come from the stored bytes). -/
def tierDigests (tier : Tier) : List Digest :=
  tier.map (fun p => ⟨p.1, p.2.length⟩)

/-- The three backends held by InnerStore: file and directory ShardedLmdb
namespaces plus the ShardedFSDB for large files. -/
structure Store where
  file_lmdb : Tier
  directory_lmdb : Tier
  file_fsdb : Tier
deriving DecidableEq, Repr

def emptyStore : Store := ⟨[], [], []⟩

/-- ByteStore::should_use_fsdb: route to the FSDB tier iff the entry is a File
of at least LARGE_FILE_SIZE_LIMIT bytes. -/
def ByteStore.should_use_fsdb (entry_type : EntryType) (len : Nat) : Bool :=
  entry_type == EntryType.File && decide (LARGE_FILE_SIZE_LIMIT ≤ len)

/-- The ShardedLmdb namespace selected by an EntryType (the match on
entry_type repeated in store_bytes_batch, get_missing_digests, etc.). -/
def routed_lmdb (st : Store) (entry_type : EntryType) : Tier :=
  match entry_type with
  | .File => st.file_lmdb
  | .Directory => st.directory_lmdb

/-- ByteStore::store_bytes_batch: partition the items by should_use_fsdb on
the byte length, write the FSDB partition to the ShardedFSDB and the rest to
the ShardedLmdb namespace for the entry type.  Writing a batch to a tier
makes every item present (ShardedFSDB::store_bytes_batch persists each item
via a temp file; the ShardedLmdb write is modelled from the spec as a byte-map
insertion).  The initial_lease flag does not affect placement. -/
def ByteStore.store_bytes_batch (st : Store) (entry_type : EntryType)
    (items : List (Nat × List Nat)) (_initial_lease : Bool) : Store :=
  let fsdb_items := items.filter (fun it => ByteStore.should_use_fsdb entry_type it.2.length)
  let lmdb_items := items.filter (fun it => !ByteStore.should_use_fsdb entry_type it.2.length)
  let st1 := { st with file_fsdb := fsdb_items ++ st.file_fsdb }
  match entry_type with
  | .File => { st1 with file_lmdb := lmdb_items ++ st1.file_lmdb }
  | .Directory => { st1 with directory_lmdb := lmdb_items ++ st1.directory_lmdb }

/-- ByteStore::store_bytes: a batch of one. -/
def ByteStore.store_bytes (st : Store) (entry_type : EntryType)
    (fingerprint : Nat) (bytes : List Nat) (initial_lease : Bool) : Store :=
  ByteStore.store_bytes_batch st entry_type [(fingerprint, bytes)] initial_lease

/-- ByteStore::entry_type: the empty fingerprint short-circuits to Directory;
otherwise check all three backends, with precedence
directory-lmdb, then file-lmdb, then file-fsdb. -/
def ByteStore.entry_type (st : Store) (fingerprint : Nat) : Option EntryType :=
  if fingerprint = EMPTY_FP then
    some EntryType.Directory
  else
    match tierContains st.directory_lmdb fingerprint,
        tierContains st.file_lmdb fingerprint,
        tierContains st.file_fsdb fingerprint with
    | true, _, _ => some EntryType.Directory
    | _, true, _ => some EntryType.File
    | _, _, true => some EntryType.File
    | false, false, false => none

/-- ByteStore::all_digests: the digests of the ShardedLmdb namespace for the
entry type, followed by the digests of the file FSDB (appended regardless of
the entry type). -/
def ByteStore.all_digests (st : Store) (entry_type : EntryType) : List Digest :=
  tierDigests (routed_lmdb st entry_type) ++ tierDigests st.file_fsdb

/-- ByteStore::get_missing_digests: partition the digests by should_use_fsdb
(the lmdb partition also excludes EMPTY_DIGEST), run exists_batch on the
FSDB and on the routed ShardedLmdb namespace for the two partitions, and keep
the digests that are not EMPTY_DIGEST and whose hash is in neither result. -/
def ByteStore.get_missing_digests (st : Store) (entry_type : EntryType)
    (digests : List Digest) : List Digest :=
  let fsdb_digests := digests.filter
    (fun d => ByteStore.should_use_fsdb entry_type d.size_bytes)
  let lmdb_digests := digests.filter
    (fun d => !ByteStore.should_use_fsdb entry_type d.size_bytes && !(d == EMPTY_DIGEST))
  let fsdb_existing := (fsdb_digests.map Digest.hash).filter
    (fun h => tierContains st.file_fsdb h)
  let lmdb_existing := (lmdb_digests.map Digest.hash).filter
    (fun h => tierContains (routed_lmdb st entry_type) h)
  let existing := fsdb_existing ++ lmdb_existing
  digests.filter (fun d => !(d == EMPTY_DIGEST) && !(existing.contains d.hash))

/-- The exists_batch primitive of a tier: the queried fingerprints that are
present. -/
def spec_exists_batch (tier : Tier) (fingerprints : List Nat) : List Nat :=
  fingerprints.filter (fun fp => tierContains tier fp)

/-- Written from the spec's description of get_missing_digests: partition by
the router predicate (the KV partition excludes EMPTY_DIGEST), run
exists_batch on FSDB and the appropriate KV namespace, and return the digests
minus those whose fingerprint is in KV-existing or FSDB-existing, minus
EMPTY_DIGEST. -/
def spec_missing_digests (st : Store) (entry_type : EntryType)
    (digests : List Digest) : List Digest :=
  let fsdb_partition := digests.filter
    (fun d => ByteStore.should_use_fsdb entry_type d.size_bytes)
  let kv_partition := digests.filter
    (fun d => !ByteStore.should_use_fsdb entry_type d.size_bytes && !(d == EMPTY_DIGEST))
  let fsdb_existing := spec_exists_batch st.file_fsdb (fsdb_partition.map Digest.hash)
  let kv_existing := spec_exists_batch (routed_lmdb st entry_type) (kv_partition.map Digest.hash)
  digests.filter
    (fun d => !(d == EMPTY_DIGEST) && !(fsdb_existing.contains d.hash || kv_existing.contains d.hash))

/-- The tier that ByteStore::load_bytes_with reads from for a given entry type
and digest. -/
def load_tier (st : Store) (entry_type : EntryType) (digest : Digest) : Tier :=
  if ByteStore.should_use_fsdb entry_type digest.size_bytes then st.file_fsdb
  else routed_lmdb st entry_type

/-- ByteStore::load_bytes_with: EMPTY_DIGEST short-circuits to f applied to
the empty slice; otherwise the routed backend is consulted and f is wrapped
with the length check (len_checked_f), which surfaces a hash-collision error
when the retrieved length differs from digest.size_bytes. -/
def ByteStore.load_bytes_with {T : Type} (st : Store) (entry_type : EntryType)
    (digest : Digest) (f : List Nat → T) : Except String (Option T) :=
  if digest = EMPTY_DIGEST then
    .ok (some (f []))
  else
    match tierLookup (load_tier st entry_type digest) digest.hash with
    | none => .ok none
    | some bytes =>
      if bytes.length = digest.size_bytes then .ok (some (f bytes))
      else .error "Got hash collision reading from store - digest was requested, but retrieved bytes with that fingerprint had a different length."

/-- Insertion into the ShardedLmdb namespace selected by the entry type
(modelled from the spec: the KV store is a black-box byte map). -/
def kv_insert (st : Store) (entry_type : EntryType) (fp : Nat) (bytes : List Nat) : Store :=
  match entry_type with
  | .File => { st with file_lmdb := (fp, bytes) :: st.file_lmdb }
  | .Directory => { st with directory_lmdb := (fp, bytes) :: st.directory_lmdb }

/-- ByteStore::store: hash the source (hashFn models async_copy_and_hash, so
the digest is the hash of the source bytes plus their length), then dispatch
on should_use_fsdb.  backend_result is the outcome of the underlying backend
store call (ShardedFSDB::store or ShardedLmdb::store).  On the FSDB branch the
source propagates it with the question-mark operator; on the lmdb branch the
source discards it (the let underscore binding), so an error there leaves the
store unchanged yet still yields Ok(digest). -/
def ByteStore.store (st : Store) (entry_type : EntryType)
    (hashFn : List Nat → Nat) (src_bytes : List Nat)
    (backend_result : Except String Unit) : Except String (Digest × Store) :=
  let digest : Digest := ⟨hashFn src_bytes, src_bytes.length⟩
  if ByteStore.should_use_fsdb entry_type digest.size_bytes then
    match backend_result with
    | .error e => .error e
    | .ok _ => .ok (digest, { st with file_fsdb := (digest.hash, src_bytes) :: st.file_fsdb })
  else
    match backend_result with
    | .error _ => .ok (digest, st)
    | .ok _ => .ok (digest, kv_insert st entry_type digest.hash src_bytes)

/-- C4: for every entry type and byte string, a blob written via
store_bytes / store_bytes_batch lands in the FSDB tier iff the entry type is
File and the length is at least 524288; everything else goes to the routed KV
tier; the 524287/524288 boundary behaves as claimed, and Directory items never
route to FSDB. -/
theorem c4_store_bytes_routing (entry_type : EntryType) (len : Nat)
    (items : List (Nat × List Nat)) (st : Store) (lease : Bool) :
    (ByteStore.should_use_fsdb entry_type len = true ↔
      (entry_type = EntryType.File ∧ 524288 ≤ len))
    ∧ (ByteStore.store_bytes_batch st entry_type items lease).file_fsdb =
        items.filter (fun it => ByteStore.should_use_fsdb entry_type it.2.length)
          ++ st.file_fsdb
    ∧ routed_lmdb (ByteStore.store_bytes_batch st entry_type items lease) entry_type =
        items.filter (fun it => !ByteStore.should_use_fsdb entry_type it.2.length)
          ++ routed_lmdb st entry_type
    ∧ ByteStore.should_use_fsdb EntryType.File 524287 = false
    ∧ ByteStore.should_use_fsdb EntryType.File 524288 = true
    ∧ ByteStore.should_use_fsdb EntryType.Directory len = false
    ∧ (∀ fp b, ByteStore.store_bytes st entry_type fp b lease =
        ByteStore.store_bytes_batch st entry_type [(fp, b)] lease) := by
  refine ⟨?_, ?_, ?_, by decide, by decide, ?_, fun fp b => rfl⟩
  · cases entry_type <;>
      simp [ByteStore.should_use_fsdb, LARGE_FILE_SIZE_LIMIT]
  · cases entry_type <;> rfl
  · cases entry_type <;> rfl
  · simp [ByteStore.should_use_fsdb]

/-- C7: entry_type returns Directory for the empty fingerprint without
consulting any backend; otherwise Directory iff the directory KV tier has the
fingerprint, else File iff the file KV tier or the FSDB has it, else none. -/
theorem c7_entry_type_precedence (st : Store) (fp : Nat) :
    (ByteStore.entry_type st fp = some EntryType.Directory ↔
      (fp = EMPTY_FP ∨ tierContains st.directory_lmdb fp = true))
    ∧ (ByteStore.entry_type st fp = some EntryType.File ↔
      (fp ≠ EMPTY_FP ∧ tierContains st.directory_lmdb fp = false ∧
        (tierContains st.file_lmdb fp = true ∨ tierContains st.file_fsdb fp = true)))
    ∧ (ByteStore.entry_type st fp = none ↔
      (fp ≠ EMPTY_FP ∧ tierContains st.directory_lmdb fp = false ∧
        tierContains st.file_lmdb fp = false ∧ tierContains st.file_fsdb fp = false))
    ∧ (fp = EMPTY_FP → ∀ st' : Store,
        ByteStore.entry_type st' fp = some EntryType.Directory) := by
  by_cases h : fp = EMPTY_FP
  · refine ⟨?_, ?_, ?_, ?_⟩ <;>
      simp [ByteStore.entry_type, h]
  · cases h1 : tierContains st.directory_lmdb fp <;>
      cases h2 : tierContains st.file_lmdb fp <;>
      cases h3 : tierContains st.file_fsdb fp <;>
      simp [ByteStore.entry_type, h, h1, h2, h3]

/-- C7 witness: concrete uses of the entry_type theorem, discharging its
hypotheses. -/
theorem c7_entry_type_precedence_witness :
    ByteStore.entry_type emptyStore EMPTY_FP = some EntryType.Directory :=
  (c7_entry_type_precedence ⟨[(1, [2])], [], []⟩ EMPTY_FP).2.2.2 rfl emptyStore

/-- C10: all_digests always appends the FSDB digests regardless of the entry
type, so all_digests(Directory) contains every FSDB (large file) digest in
addition to the directory KV digests. -/
theorem c10_all_digests_includes_fsdb (st : Store) (entry_type : EntryType) (d : Digest) :
    (d ∈ tierDigests st.file_fsdb → d ∈ ByteStore.all_digests st entry_type)
    ∧ (d ∈ ByteStore.all_digests st EntryType.Directory ↔
        (d ∈ tierDigests st.directory_lmdb ∨ d ∈ tierDigests st.file_fsdb)) := by
  constructor
  · intro hd
    exact List.mem_append.mpr (Or.inr hd)
  · simp [ByteStore.all_digests, routed_lmdb]

/-- C10 witness: a file blob in the FSDB appears in all_digests(Directory). -/
theorem c10_all_digests_includes_fsdb_witness :
    (⟨7, 1⟩ : Digest) ∈ ByteStore.all_digests ⟨[], [], [(7, [9])]⟩ EntryType.Directory :=
  (c10_all_digests_includes_fsdb ⟨[], [], [(7, [9])]⟩ EntryType.Directory ⟨7, 1⟩).1
    (by decide)

/-- C5: get_missing_digests computes exactly the set described by the spec:
the digests minus (KV-existing, union FSDB-existing, union the singleton
EMPTY_DIGEST), where the existing sets are the exists_batch results on the
two partitions; and EMPTY_DIGEST is never in the result. -/
theorem c5_get_missing_digests_spec (st : Store) (entry_type : EntryType)
    (digests : List Digest) :
    ByteStore.get_missing_digests st entry_type digests =
      spec_missing_digests st entry_type digests
    ∧ EMPTY_DIGEST ∉ ByteStore.get_missing_digests st entry_type digests := by
  constructor
  · simp only [ByteStore.get_missing_digests, spec_missing_digests, spec_exists_batch]
    apply List.filter_congr
    intro d _
    rw [Bool.eq_iff_iff]
    constructor <;> intro h <;> simp_all [List.mem_append] <;> exact h.2
  · intro hmem
    simp [ByteStore.get_missing_digests, List.mem_filter] at hmem

/-- C5 witness: an unstored digest is reported missing, and EMPTY_DIGEST is
not, even though neither was ever stored. -/
theorem c5_get_missing_digests_spec_witness :
    EMPTY_DIGEST ∉ ByteStore.get_missing_digests emptyStore EntryType.File
      [EMPTY_DIGEST, ⟨3, 5⟩] :=
  (c5_get_missing_digests_spec emptyStore EntryType.File [EMPTY_DIGEST, ⟨3, 5⟩]).2

/-- C6: the load path.  The EMPTY_DIGEST short-circuit applies f to the empty
slice for any store state (so no backend is consulted); for any other digest a
retrieved byte string whose length differs from digest.size_bytes produces a
hash-collision error instead of applying f; and whenever a value is produced
it is f applied to bytes of exactly the declared length. -/
theorem c6_load_length_check (T : Type) (st : Store) (entry_type : EntryType)
    (digest : Digest) (f : List Nat → T) :
    (digest = EMPTY_DIGEST →
      ByteStore.load_bytes_with st entry_type digest f = .ok (some (f [])))
    ∧ (digest ≠ EMPTY_DIGEST → ∀ bytes,
        tierLookup (load_tier st entry_type digest) digest.hash = some bytes →
        bytes.length ≠ digest.size_bytes →
        ∃ e, ByteStore.load_bytes_with st entry_type digest f = .error e)
    ∧ (∀ t, ByteStore.load_bytes_with st entry_type digest f = .ok (some t) →
        ∃ bytes, bytes.length = digest.size_bytes ∧ t = f bytes) := by
  refine ⟨?_, ?_, ?_⟩
  · intro h
    simp [ByteStore.load_bytes_with, h]
  · intro h bytes hb hlen
    refine ⟨"Got hash collision reading from store - digest was requested, but retrieved bytes with that fingerprint had a different length.", ?_⟩
    simp [ByteStore.load_bytes_with, h, hb, hlen]
  · intro t ht
    by_cases h : digest = EMPTY_DIGEST
    · refine ⟨[], ?_, ?_⟩
      · simp [h, EMPTY_DIGEST]
      · simp [ByteStore.load_bytes_with, h] at ht
        exact ht.symm
    · simp only [ByteStore.load_bytes_with, h, if_neg h] at ht
      rcases hcase : tierLookup (load_tier st entry_type digest) digest.hash with _ | bytes
      · rw [hcase] at ht
        simp at ht
      · rw [hcase] at ht
        by_cases hlen : bytes.length = digest.size_bytes
        · simp [hlen] at ht
          exact ⟨bytes, hlen, ht.symm⟩
        · simp [hlen] at ht

/-- C6 witness: the theorem applied at concrete inputs: the empty digest
short-circuit, and a stored entry whose length disagrees with the requested
digest. -/
theorem c6_load_length_check_witness :
    ByteStore.load_bytes_with emptyStore EntryType.File EMPTY_DIGEST
      (fun l : List Nat => l.length) = .ok (some 0)
    ∧ ∃ e, ByteStore.load_bytes_with (⟨[(5, [1, 2, 3])], [], []⟩ : Store)
        EntryType.File ⟨5, 7⟩ (fun l : List Nat => l.length) = .error e := by
  constructor
  · exact (c6_load_length_check Nat emptyStore EntryType.File EMPTY_DIGEST
      (fun l => l.length)).1 rfl
  · exact (c6_load_length_check Nat ⟨[(5, [1, 2, 3])], [], []⟩ EntryType.File
      ⟨5, 7⟩ (fun l => l.length)).2.1 (by decide) [1, 2, 3] (by decide) (by decide)

/-- C1: evaluating ByteStore::store on the KV branch with a failing backend:
the underlying error is discarded, the call returns Ok(digest) although the
blob was never persisted, and a subsequent load_bytes_with finds nothing.  On
the FSDB branch (third conjunct) the same backend failure is propagated. -/
theorem c1_store_kv_error_dropped :
    ByteStore.store emptyStore EntryType.File (fun _ => 42) [7] (.error "disk full") =
      .ok (⟨42, 1⟩, emptyStore)
    ∧ ByteStore.load_bytes_with emptyStore EntryType.File ⟨42, 1⟩
        (fun bytes => bytes) = .ok none
    ∧ ByteStore.store emptyStore EntryType.File (fun _ => 42)
        (List.replicate LARGE_FILE_SIZE_LIMIT 0) (.error "disk full") =
      .error "disk full" := by
  refine ⟨by rfl, by rfl, ?_⟩
  simp only [ByteStore.store, List.length_replicate, ByteStore.should_use_fsdb]
  norm_num

/-- The success branch of ShardedFSDB::store: flush the writer and persist the
temp file; either step's failure is propagated.  The attempt counter of the
enclosing loop is threaded through for the attempt count of the result. -/
def persist_step (persist_result : Except String Unit) (attempts : Nat) :
    Except String Unit × Nat :=
  match persist_result with
  | .error e => (.error e, attempts + 1)
  | .ok _ => (.ok (), attempts + 1)

/-- ShardedFSDB::store's verified-copy retry loop.  copy_result i models the
outcome of async_verified_copy on the (i+1)-th copy attempt (Ok true: content
verified; Ok false: the source changed while reading, so should_retry; Err:
I/O error), and persist_result models the flush-and-persist success branch.
The Rust loop counts failed attempts upward and aborts once the counter
exceeds 10; here attempts is that counter and remaining is its countdown
complement (along the loop remaining + attempts = 10), so the Rust abort
condition attempts + 1 > 10 is reached exactly when remaining = 0.  The if on
the should_retry flag is written as the two Ok branches of the match.  The
result is paired with the total number of copy attempts performed. -/
def ShardedFSDB.store_loop (copy_result : Nat → Except String Bool)
    (persist_result : Except String Unit) :
    (remaining attempts : Nat) → Except String Unit × Nat
  | remaining, attempts =>
    match copy_result attempts, remaining with
    | .error e, _ => (.error e, attempts + 1)
    | .ok true, _ => persist_step persist_result attempts
    | .ok false, 0 => (.error "Failed to store", attempts + 1)
    | .ok false, r + 1 =>
      ShardedFSDB.store_loop copy_result persist_result r (attempts + 1)

/-- ShardedFSDB::store: the retry loop started with zero failed attempts,
i.e. ten retries remaining. -/
def ShardedFSDB.store_retry (copy_result : Nat → Except String Bool)
    (persist_result : Except String Unit) : Except String Unit × Nat :=
  ShardedFSDB.store_loop copy_result persist_result 10 0

theorem store_loop_all_retry (copy_result : Nat → Except String Bool)
    (persist_result : Except String Unit)
    (hc : ∀ i, i ≤ 10 → copy_result i = .ok false) :
    ∀ (remaining attempts : Nat), remaining + attempts = 10 →
      ShardedFSDB.store_loop copy_result persist_result remaining attempts =
        (.error "Failed to store", 11) := by
  intro remaining
  induction remaining with
  | zero =>
    intro attempts h
    have ha : attempts = 10 := by omega
    subst ha
    simp [ShardedFSDB.store_loop, hc 10 (by omega)]
  | succ r ih =>
    intro attempts h
    have h1 : copy_result attempts = .ok false := hc attempts (by omega)
    rw [show ShardedFSDB.store_loop copy_result persist_result (r + 1) attempts =
      ShardedFSDB.store_loop copy_result persist_result r (attempts + 1) from by
        simp [ShardedFSDB.store_loop, h1]]
    exact ih (attempts + 1) (by omega)

theorem store_loop_attempt_bound (copy_result : Nat → Except String Bool)
    (persist_result : Except String Unit) :
    ∀ (remaining attempts : Nat),
      (ShardedFSDB.store_loop copy_result persist_result remaining attempts).2 ≤
        attempts + remaining + 1 := by
  intro remaining
  induction remaining with
  | zero =>
    intro attempts
    cases hcr : copy_result attempts with
    | error e => simp [ShardedFSDB.store_loop, hcr]
    | ok v =>
      cases v with
      | true =>
        cases persist_result <;> simp [ShardedFSDB.store_loop, persist_step, hcr]
      | false => simp [ShardedFSDB.store_loop, hcr]
  | succ r ih =>
    intro attempts
    cases hcr : copy_result attempts with
    | error e =>
      simp [ShardedFSDB.store_loop, hcr]
    | ok v =>
      cases v with
      | true =>
        cases persist_result <;> simp [ShardedFSDB.store_loop, persist_step, hcr]
      | false =>
        rw [show ShardedFSDB.store_loop copy_result persist_result (r + 1) attempts =
          ShardedFSDB.store_loop copy_result persist_result r (attempts + 1) from by
            simp [ShardedFSDB.store_loop, hcr]]
        have := ih (attempts + 1)
        omega

/-- C2 counterexample: with a source that keeps changing (every verified copy
reports should_retry), the loop performs an 11th copy attempt before giving
up: the fatal error is produced with 11 copy attempts made, not 10 as
claimed. -/
theorem c2_counterexample_eleventh_attempt :
    ShardedFSDB.store_retry (fun _ => .ok false) (.ok ()) =
      (.error "Failed to store", 11) := by rfl

/-- C2 amended: the retry ceiling is 11 copy attempts, not 10: the counter of
failed attempts is incremented after each failed copy and the loop aborts only
once it exceeds 10, so when the verified-copy primitive keeps reporting that
the source changed the operation is retried until 11 consecutive attempts have
failed, a fatal error is then returned, and no 12th attempt is ever made. -/
theorem c2_retry_ceiling (copy_result : Nat → Except String Bool)
    (persist_result : Except String Unit) :
    (ShardedFSDB.store_retry copy_result persist_result).2 ≤ 11
    ∧ ((∀ i, i ≤ 10 → copy_result i = .ok false) →
        ShardedFSDB.store_retry copy_result persist_result =
          (.error "Failed to store", 11)) := by
  constructor
  · have := store_loop_attempt_bound copy_result persist_result 10 0
    simpa [ShardedFSDB.store_retry] using this
  · intro hc
    exact store_loop_all_retry copy_result persist_result hc 10 0 (by omega)

/-- C2 witness: the amended theorem applied to the always-changing source. -/
theorem c2_retry_ceiling_witness :
    ShardedFSDB.store_retry (fun _ => .ok false) (.ok ()) =
      (.error "Failed to store", 11) :=
  (c2_retry_ceiling (fun _ => .ok false) (.ok ())).2 (fun _ _ => rfl)

/-- ShrinkBehavior from the store crate: whether shrink additionally compacts
the file KV database on normal exit.  Compaction does not affect the returned
used_bytes or which entries are removed, so it is not modelled further. -/
inductive ShrinkBehavior
  | Fast
  | Compact
deriving DecidableEq, Repr

/-- AgedFingerprint from the hashing crate (modelled from the spec: the crate
is not under src/): a fingerprint with its size and how many seconds ago its
lease expired, 0 meaning still leased / unexpired. -/
structure AgedFingerprint where
  expired_seconds_ago : Nat
  fingerprint : Nat
  size_bytes : Nat
deriving DecidableEq, Repr

/-- An element of the shrink max-heap: an aged fingerprint tagged with the
EntryType of the backend it came from. -/
abbrev ShrinkEntry := AgedFingerprint × EntryType

def sumSizes (l : List ShrinkEntry) : Nat :=
  (l.map (fun e => e.1.size_bytes)).sum

/-- The order in which the shrink loop pops entries from its BinaryHeap.
Modelled from the spec: the max-heap is keyed by expired_seconds_ago with ties
broken arbitrarily, so the pop sequence enumerates the entries in descending
expired_seconds_ago order. -/
def heap_pop_order (entries : List ShrinkEntry) : List ShrinkEntry :=
  entries.mergeSort
    (fun a b => decide (b.1.expired_seconds_ago ≤ a.1.expired_seconds_ago))

/-- The while-loop of ByteStore::shrink, consuming the heap in pop order:
while used_bytes > target_bytes, pop the most-expired entry; popping an empty
heap is the expect panic of the source, modelled as an error; a popped entry
with expired_seconds_ago == 0 stops the loop and returns used_bytes (that
entry was not removed, so it is among the surviving entries); otherwise the
entry is removed via the router (removal always reaches the routed backend in
this model) and its size subtracted.  The result pairs the returned used_bytes
with the entries that were not removed. -/
def ByteStore.shrink_loop (target_bytes : Nat) :
    (used_bytes : Nat) → (heap : List ShrinkEntry) →
      Except String (Nat × List ShrinkEntry)
  | used_bytes, heap =>
    if used_bytes ≤ target_bytes then .ok (used_bytes, heap)
    else
      match heap with
      | [] => .error "lmdb corruption detected, sum of size of blobs exceeded stored blobs"
      | e :: rest =>
        if e.1.expired_seconds_ago = 0 then .ok (used_bytes, e :: rest)
        else ByteStore.shrink_loop target_bytes (used_bytes - e.1.size_bytes) rest

/-- ByteStore::shrink: gather the aged fingerprints of the three backends
(file KV and FSDB tagged File, directory KV tagged Directory), sum their sizes
into used_bytes, and run the eviction loop over the heap in pop order. -/
def ByteStore.shrink (file_lmdb_aged directory_lmdb_aged file_fsdb_aged : List AgedFingerprint)
    (target_bytes : Nat) (_shrink_behavior : ShrinkBehavior) :
    Except String (Nat × List ShrinkEntry) :=
  let entries : List ShrinkEntry :=
    file_lmdb_aged.map (fun a => (a, EntryType.File))
      ++ directory_lmdb_aged.map (fun a => (a, EntryType.Directory))
      ++ file_fsdb_aged.map (fun a => (a, EntryType.File))
  ByteStore.shrink_loop target_bytes (sumSizes entries) (heap_pop_order entries)

theorem sumSizes_cons (e : ShrinkEntry) (l : List ShrinkEntry) :
    sumSizes (e :: l) = e.1.size_bytes + sumSizes l := by
  simp [sumSizes]

theorem sumSizes_perm {l1 l2 : List ShrinkEntry} (h : l1.Perm l2) :
    sumSizes l1 = sumSizes l2 := by
  unfold sumSizes
  exact (h.map (fun e => e.1.size_bytes)).sum_eq

theorem shrink_loop_spec (target_bytes : Nat) :
    ∀ (heap : List ShrinkEntry) (used_bytes : Nat),
      used_bytes = sumSizes heap →
      List.Pairwise
        (fun a b : ShrinkEntry =>
          b.1.expired_seconds_ago ≤ a.1.expired_seconds_ago) heap →
      ∃ used survivors,
        ByteStore.shrink_loop target_bytes used_bytes heap = .ok (used, survivors)
        ∧ used = sumSizes survivors
        ∧ (used ≤ target_bytes ∨ ∀ e ∈ survivors, e.1.expired_seconds_ago = 0) := by
  intro heap
  induction heap with
  | nil =>
    intro used hsum _
    have h0 : used = 0 := by simpa [sumSizes] using hsum
    subst h0
    exact ⟨0, [], by simp [ByteStore.shrink_loop], by simp [sumSizes], Or.inl (by omega)⟩
  | cons e rest ih =>
    intro used hsum hpw
    by_cases h1 : used ≤ target_bytes
    · exact ⟨used, e :: rest, by simp [ByteStore.shrink_loop, h1], hsum, Or.inl h1⟩
    · by_cases h2 : e.1.expired_seconds_ago = 0
      · refine ⟨used, e :: rest, by simp [ByteStore.shrink_loop, h1, h2], hsum, Or.inr ?_⟩
        intro x hx
        rcases List.mem_cons.mp hx with rfl | hx
        · exact h2
        · have := (List.pairwise_cons.mp hpw).1 x hx
          omega
      · obtain ⟨used', surv, heq, hsum', hdisj⟩ :=
          ih (used - e.1.size_bytes)
            (by rw [sumSizes_cons] at hsum; omega)
            (List.pairwise_cons.mp hpw).2
        refine ⟨used', surv, ?_, hsum', hdisj⟩
        rw [show ByteStore.shrink_loop target_bytes used (e :: rest) =
          ByteStore.shrink_loop target_bytes (used - e.1.size_bytes) rest from by
            simp [ByteStore.shrink_loop, h1, h2]]
        exact heq

/-- C3: shrink pops victims most-expired-first and stops at the first popped
entry whose expired_seconds_ago is 0; whatever the inputs, it succeeds and on
return either the returned used_bytes is at most target_bytes, or every entry
still present (not removed) has expired_seconds_ago == 0; the returned
used_bytes is always the total size of the surviving entries. -/
theorem c3_shrink_lease_wall
    (file_lmdb_aged directory_lmdb_aged file_fsdb_aged : List AgedFingerprint)
    (target_bytes : Nat) (behavior : ShrinkBehavior) :
    ∃ used survivors,
      ByteStore.shrink file_lmdb_aged directory_lmdb_aged file_fsdb_aged
          target_bytes behavior = .ok (used, survivors)
      ∧ used = sumSizes survivors
      ∧ (used ≤ target_bytes ∨ ∀ e ∈ survivors, e.1.expired_seconds_ago = 0) := by
  unfold ByteStore.shrink
  have hperm : (heap_pop_order
      (file_lmdb_aged.map (fun a => (a, EntryType.File))
        ++ directory_lmdb_aged.map (fun a => (a, EntryType.Directory))
        ++ file_fsdb_aged.map (fun a => (a, EntryType.File)))).Perm
      (file_lmdb_aged.map (fun a => (a, EntryType.File))
        ++ directory_lmdb_aged.map (fun a => (a, EntryType.Directory))
        ++ file_fsdb_aged.map (fun a => (a, EntryType.File))) :=
    List.mergeSort_perm _ _
  have hpw := @List.sorted_mergeSort ShrinkEntry
    (fun a b : ShrinkEntry =>
      decide (b.1.expired_seconds_ago ≤ a.1.expired_seconds_ago))
    (fun a b c hab hbc => by
      simp only [decide_eq_true_eq] at *
      omega)
    (fun a b => by
      rcases Nat.le_total a.1.expired_seconds_ago b.1.expired_seconds_ago with h | h <;>
        simp [h])
    (file_lmdb_aged.map (fun a => (a, EntryType.File))
      ++ directory_lmdb_aged.map (fun a => (a, EntryType.Directory))
      ++ file_fsdb_aged.map (fun a => (a, EntryType.File)))
  have hpw' := hpw.imp (fun h => by simpa using h)
  exact shrink_loop_spec target_bytes _ _ (sumSizes_perm hperm).symm hpw'

/-- C3 witness: the shrink theorem applied at a concrete input. -/
theorem c3_shrink_lease_wall_witness :
    ∃ used survivors,
      ByteStore.shrink [⟨5, 1, 3⟩] [] [⟨0, 2, 4⟩] 0 ShrinkBehavior.Fast =
        .ok (used, survivors)
      ∧ used = sumSizes survivors
      ∧ (used ≤ 0 ∨ ∀ e ∈ survivors, e.1.expired_seconds_ago = 0) :=
  c3_shrink_lease_wall [⟨5, 1, 3⟩] [] [⟨0, 2, 4⟩] 0 ShrinkBehavior.Fast

/-- C9: the loop invariant of ByteStore::shrink: when used_bytes is the sum of
the sizes of the entries in the heap (as it is at entry, and as each iteration
preserves), the loop always terminates in Ok: the expect on the pop (modelled
as the error branch for an empty heap) is unreachable, because used_bytes
greater than target_bytes forces the heap to be non-empty. -/
theorem c9_shrink_loop_invariant (target_bytes used_bytes : Nat)
    (heap : List ShrinkEntry) (hinv : used_bytes = sumSizes heap) :
    ∃ r, ByteStore.shrink_loop target_bytes used_bytes heap = .ok r := by
  induction heap generalizing used_bytes with
  | nil =>
    have h0 : used_bytes = 0 := by simpa [sumSizes] using hinv
    subst h0
    exact ⟨(0, []), by simp [ByteStore.shrink_loop]⟩
  | cons e rest ih =>
    by_cases h1 : used_bytes ≤ target_bytes
    · exact ⟨(used_bytes, e :: rest), by simp [ByteStore.shrink_loop, h1]⟩
    · by_cases h2 : e.1.expired_seconds_ago = 0
      · exact ⟨(used_bytes, e :: rest), by simp [ByteStore.shrink_loop, h1, h2]⟩
      · obtain ⟨r, hr⟩ := ih (used_bytes - e.1.size_bytes)
          (by rw [sumSizes_cons] at hinv; omega)
        refine ⟨r, ?_⟩
        rw [show ByteStore.shrink_loop target_bytes used_bytes (e :: rest) =
          ByteStore.shrink_loop target_bytes (used_bytes - e.1.size_bytes) rest from by
            simp [ByteStore.shrink_loop, h1, h2]]
        exact hr

/-- C9 witness: the loop invariant theorem applied at a concrete heap. -/
theorem c9_shrink_loop_invariant_witness :
    ∃ r, ByteStore.shrink_loop 0 7 [(⟨5, 1, 3⟩, EntryType.File), (⟨2, 9, 4⟩, EntryType.Directory)] = .ok r :=
  c9_shrink_loop_invariant 0 7
    [(⟨5, 1, 3⟩, EntryType.File), (⟨2, 9, 4⟩, EntryType.Directory)] (by simp [sumSizes])

/-- A regular file found in the two-level FSDB walk: its filename, its
metadata length in bytes, and its mtime in whole seconds (the metadata read of
the source is modelled by these given fields; times are integer seconds). -/
structure FsFile where
  name : String
  length : Nat
  mtime : Int
deriving DecidableEq, Repr

/-- Modelled from the spec: the value of one hex digit (the hashing crate's
fingerprint parser is not under src/). -/
def hexVal (c : Char) : Option Nat :=
  if '0' ≤ c ∧ c ≤ '9' then some (c.toNat - Char.toNat '0')
  else if 'a' ≤ c ∧ c ≤ 'f' then some (c.toNat - Char.toNat 'a' + 10)
  else if 'A' ≤ c ∧ c ≤ 'F' then some (c.toNat - Char.toNat 'A' + 10)
  else none

/-- Modelled from the spec: Fingerprint::from_hex_string: a filename of
exactly 64 hex characters parses to the fingerprint value; anything else is an
error (malformed names indicate corruption). -/
def fromHexString (s : String) : Except String Nat :=
  if s.data.length = 64 then
    s.data.foldl
      (fun acc c =>
        match acc, hexVal c with
        | .ok v, some d => .ok (16 * v + d)
        | .ok _, none => .error "Invalid file store entry: invalid hex digit"
        | .error e, _ => .error e)
      (.ok 0)
  else .error "Invalid file store entry: invalid fingerprint length"

/-- Processing of one file in ShardedFSDB::aged_fingerprints:
expired_seconds_ago is the duration from the file's mtime to the expiration
time, where duration_since yields Err for an mtime past the expiration time
and unwrap_or turns that into 0 (still leased) - i.e. a saturating
subtraction; size_bytes is the metadata length; the filename must parse as a
hex fingerprint or the walk fails. -/
def ShardedFSDB.process_file (expiration_time : Int) (file : FsFile) :
    Except String AgedFingerprint :=
  let expired_seconds_ago := (expiration_time - file.mtime).toNat
  match fromHexString file.name with
  | .error e => .error e
  | .ok fp => .ok ⟨expired_seconds_ago, fp, file.length⟩

/-- The inner loop of ShardedFSDB::aged_fingerprints over the files of one
shard directory, in iteration order; the first failure aborts the walk. -/
def ShardedFSDB.walk_files (expiration_time : Int) :
    List FsFile → Except String (List AgedFingerprint)
  | [] => .ok []
  | file :: rest =>
    match ShardedFSDB.process_file expiration_time file with
    | .error e => .error e
    | .ok a =>
      match ShardedFSDB.walk_files expiration_time rest with
      | .error e => .error e
      | .ok l => .ok (a :: l)

/-- The outer loop of ShardedFSDB::aged_fingerprints over the shard
directories; the fingerprints of all shards accumulate into one list. -/
def ShardedFSDB.walk_shards (expiration_time : Int) :
    List (List FsFile) → Except String (List AgedFingerprint)
  | [] => .ok []
  | shard :: rest =>
    match ShardedFSDB.walk_files expiration_time shard with
    | .error e => .error e
    | .ok l1 =>
      match ShardedFSDB.walk_shards expiration_time rest with
      | .error e => .error e
      | .ok l2 => .ok (l1 ++ l2)

/-- ShardedFSDB::aged_fingerprints: the expiration time is now minus
lease_time; the two-level directory tree is modelled as the list of shard
directories, each the list of its files in iteration order. -/
def ShardedFSDB.aged_fingerprints (now lease_time : Int)
    (shards : List (List FsFile)) : Except String (List AgedFingerprint) :=
  ShardedFSDB.walk_shards (now - lease_time) shards

theorem walk_files_ok (expiration_time : Int) :
    ∀ (files : List FsFile) (l : List AgedFingerprint),
      ShardedFSDB.walk_files expiration_time files = .ok l →
      List.Forall₂
        (fun (f : FsFile) (a : AgedFingerprint) =>
          fromHexString f.name = .ok a.fingerprint ∧ a.size_bytes = f.length ∧
            (a.expired_seconds_ago : Int) = max 0 (expiration_time - f.mtime))
        files l := by
  intro files
  induction files with
  | nil =>
    intro l hl
    simp only [ShardedFSDB.walk_files] at hl
    cases hl
    exact List.Forall₂.nil
  | cons f rest ih =>
    intro l hl
    simp only [ShardedFSDB.walk_files] at hl
    cases hp : ShardedFSDB.process_file expiration_time f with
    | error e => rw [hp] at hl; cases hl
    | ok a =>
      rw [hp] at hl
      cases hw : ShardedFSDB.walk_files expiration_time rest with
      | error e => rw [hw] at hl; cases hl
      | ok l2 =>
        rw [hw] at hl
        cases hl
        refine List.Forall₂.cons ?_ (ih l2 hw)
        simp only [ShardedFSDB.process_file] at hp
        cases hx : fromHexString f.name with
        | error e => rw [hx] at hp; cases hp
        | ok fp =>
          rw [hx] at hp
          cases hp
          refine ⟨rfl, rfl, ?_⟩
          rw [Int.toNat_eq_max, max_comm]

theorem walk_files_err (expiration_time : Int) :
    ∀ (files : List FsFile),
      (∃ f ∈ files, ∃ e, fromHexString f.name = .error e) →
      ∃ msg, ShardedFSDB.walk_files expiration_time files = .error msg := by
  intro files
  induction files with
  | nil =>
    rintro ⟨f, hf, _⟩
    cases hf
  | cons f rest ih =>
    rintro ⟨g, hg, e, he⟩
    rcases List.mem_cons.mp hg with rfl | hg
    · refine ⟨e, ?_⟩
      simp [ShardedFSDB.walk_files, ShardedFSDB.process_file, he]
    · cases hp : ShardedFSDB.process_file expiration_time f with
      | error e2 => exact ⟨e2, by simp [ShardedFSDB.walk_files, hp]⟩
      | ok a =>
        obtain ⟨msg, hmsg⟩ := ih ⟨g, hg, e, he⟩
        exact ⟨msg, by simp [ShardedFSDB.walk_files, hp, hmsg]⟩

theorem walk_shards_ok (expiration_time : Int) :
    ∀ (shards : List (List FsFile)) (l : List AgedFingerprint),
      ShardedFSDB.walk_shards expiration_time shards = .ok l →
      List.Forall₂
        (fun (f : FsFile) (a : AgedFingerprint) =>
          fromHexString f.name = .ok a.fingerprint ∧ a.size_bytes = f.length ∧
            (a.expired_seconds_ago : Int) = max 0 (expiration_time - f.mtime))
        shards.flatten l := by
  intro shards
  induction shards with
  | nil =>
    intro l hl
    simp only [ShardedFSDB.walk_shards] at hl
    cases hl
    exact List.Forall₂.nil
  | cons shard rest ih =>
    intro l hl
    simp only [ShardedFSDB.walk_shards] at hl
    cases hw : ShardedFSDB.walk_files expiration_time shard with
    | error e => rw [hw] at hl; cases hl
    | ok l1 =>
      rw [hw] at hl
      cases hs : ShardedFSDB.walk_shards expiration_time rest with
      | error e => rw [hs] at hl; cases hl
      | ok l2 =>
        rw [hs] at hl
        cases hl
        rw [List.flatten_cons]
        exact List.rel_append (walk_files_ok expiration_time shard l1 hw) (ih l2 hs)

theorem walk_shards_err (expiration_time : Int) :
    ∀ (shards : List (List FsFile)),
      (∃ f ∈ shards.flatten, ∃ e, fromHexString f.name = .error e) →
      ∃ msg, ShardedFSDB.walk_shards expiration_time shards = .error msg := by
  intro shards
  induction shards with
  | nil =>
    rintro ⟨f, hf, _⟩
    simp at hf
  | cons shard rest ih =>
    rintro ⟨g, hg, e, he⟩
    rw [List.flatten_cons, List.mem_append] at hg
    rcases hg with hg | hg
    · obtain ⟨msg, hmsg⟩ := walk_files_err expiration_time shard ⟨g, hg, e, he⟩
      exact ⟨msg, by simp [ShardedFSDB.walk_shards, hmsg]⟩
    · cases hw : ShardedFSDB.walk_files expiration_time shard with
      | error e2 => exact ⟨e2, by simp [ShardedFSDB.walk_shards, hw]⟩
      | ok l1 =>
        obtain ⟨msg, hmsg⟩ := ih ⟨g, hg, e, he⟩
        exact ⟨msg, by simp [ShardedFSDB.walk_shards, hw, hmsg]⟩

/-- C8: every aged fingerprint produced by the FSDB walk corresponds to a
walked file, with expired_seconds_ago the saturating difference
max(0, (now - lease_time) - mtime) and size_bytes the file's length, and with
its fingerprint parsed from the filename; a filename that does not parse as a
hex fingerprint makes the whole call return an error. -/
theorem c8_aged_fingerprints_shape (now lease_time : Int)
    (shards : List (List FsFile)) :
    (∀ l, ShardedFSDB.aged_fingerprints now lease_time shards = .ok l →
      List.Forall₂
        (fun (f : FsFile) (a : AgedFingerprint) =>
          fromHexString f.name = .ok a.fingerprint ∧ a.size_bytes = f.length ∧
            (a.expired_seconds_ago : Int) = max 0 (now - lease_time - f.mtime))
        shards.flatten l)
    ∧ ((∃ f ∈ shards.flatten, ∃ e, fromHexString f.name = .error e) →
        ∃ msg, ShardedFSDB.aged_fingerprints now lease_time shards = .error msg) := by
  constructor
  · intro l hl
    exact walk_shards_ok (now - lease_time) shards l hl
  · intro hbad
    exact walk_shards_err (now - lease_time) shards hbad

/-- C8 witness: the theorem applied to a one-file tree with a well-formed
name (now = 100, lease_time = 10, mtime = 3, so the entry is 87 seconds
expired) and to a tree whose single filename is malformed. -/
theorem c8_aged_fingerprints_shape_witness :
    List.Forall₂
      (fun (f : FsFile) (a : AgedFingerprint) =>
        fromHexString f.name = .ok a.fingerprint ∧ a.size_bytes = f.length ∧
          (a.expired_seconds_ago : Int) = max 0 (100 - 10 - f.mtime))
      [⟨"0000000000000000000000000000000000000000000000000000000000000000", 5, 3⟩]
      [⟨87, 0, 5⟩]
    ∧ ∃ msg, ShardedFSDB.aged_fingerprints 100 10 [[⟨"zz", 1, 1⟩]] = .error msg := by
  constructor
  · have h := (c8_aged_fingerprints_shape 100 10
      [[⟨"0000000000000000000000000000000000000000000000000000000000000000", 5, 3⟩]]).1
      [⟨87, 0, 5⟩] (by rfl)
    simpa using h
  · exact (c8_aged_fingerprints_shape 100 10 [[⟨"zz", 1, 1⟩]]).2
      ⟨⟨"zz", 1, 1⟩, by simp, "Invalid file store entry: invalid fingerprint length", rfl⟩

/-- C4 witness: the routing theorem applied at the boundary, discharging the
iff at a concrete length. -/
theorem c4_store_bytes_routing_witness :
    ByteStore.should_use_fsdb EntryType.File 600000 = true :=
  (c4_store_bytes_routing EntryType.File 600000 [] emptyStore true).1.mpr
    ⟨rfl, by omega⟩
